import Mathlib

/-!
Verification of the yuutrace UI aggregation layer.

The embedded code is `ui/src/utils/parse.ts` (typed decoding of span
events into cost / usage delta records) together with the aggregation
computations of `ui/src/components/CostSummary.tsx` (total, by-category
and by-model cost maps) and `ui/src/components/UsageSummary.tsx`
(token-usage grouping by provider/model).

Modelling conventions:
* JavaScript numbers are modelled exactly by rationals extended with a
  NaN element (`JsNum`); IEEE-754 rounding is below every tolerance the
  spec states, and NaN propagation through addition is modelled exactly.
* Attribute values (`Record<string, unknown>` entries) are modelled by
  the scalar values the wire format carries: strings, numbers and
  booleans (`AttrValue`).  A JSON `null` entry and an absent key are
  both modelled as an absent key, matching the `== null` / `??` checks
  in the source, which cannot tell the two apart.
* `Number(x)` string coercion is modelled for optionally signed decimal
  literals (with optional fractional part, surrounding whitespace, and
  the empty string coercing to 0); other strings coerce to NaN.  No
  theorem below depends on the exotic literal forms (hex, exponent,
  Infinity) that real JavaScript additionally accepts.
* `String(x)` on a number is modelled by the rational printer; every
  theorem below only ever applies it to string and boolean values.
* A JavaScript `Map` is modelled as an insertion-ordered association
  list with upsert (`mapSet`) and lookup (`mapGet`).
-/

namespace Yuutrace

/-- A JavaScript number: a rational, or NaN. -/
inductive JsNum where
  | num (q : ℚ)
  | nan
deriving DecidableEq, Repr

namespace JsNum

/-- Addition of JavaScript numbers: NaN is absorbing. -/
def add : JsNum → JsNum → JsNum
  | num x, num y => num (x + y)
  | _, _ => nan

instance : Add JsNum := ⟨JsNum.add⟩

instance : Zero JsNum := ⟨JsNum.num 0⟩

instance : AddCommMonoid JsNum where
  add_assoc a b c := by
    show JsNum.add (JsNum.add a b) c = JsNum.add a (JsNum.add b c)
    cases a <;> cases b <;> cases c <;> simp [JsNum.add, add_assoc]
  zero_add a := by
    show JsNum.add (JsNum.num 0) a = a
    cases a <;> simp [JsNum.add]
  add_zero a := by
    show JsNum.add a (JsNum.num 0) = a
    cases a <;> simp [JsNum.add]
  add_comm a b := by
    show JsNum.add a b = JsNum.add b a
    cases a <;> cases b <;> simp [JsNum.add, add_comm]
  nsmul := nsmulRec

end JsNum

/-- A scalar attribute value as carried by span / event attribute maps. -/
inductive AttrValue where
  | s (v : String)
  | n (v : JsNum)
  | b (v : Bool)
deriving DecidableEq, Repr

/-- Digit characters folded into a natural number. -/
def natOfDigits (cs : List Char) : ℕ :=
  cs.foldl (fun acc c => acc * 10 + (c.toNat - 48)) 0

/-- Unsigned JavaScript decimal literal: digits with an optional
fractional part; at least one digit overall. -/
def parseUnsigned (cs : List Char) : Option ℚ :=
  let intPart := cs.takeWhile (fun c => c.isDigit)
  let rest := cs.dropWhile (fun c => c.isDigit)
  match rest with
  | [] =>
      if intPart.isEmpty then none else some (natOfDigits intPart)
  | '.' :: frac =>
      if frac.all (fun c => c.isDigit) && !(intPart.isEmpty && frac.isEmpty) then
        some ((natOfDigits intPart : ℚ) +
          (natOfDigits frac : ℚ) / ((10 : ℚ) ^ frac.length))
      else none
  | _ => none

/-- Optionally signed JavaScript decimal literal. -/
def parseSigned : List Char → Option ℚ
  | '-' :: cs => (parseUnsigned cs).map (fun q => -q)
  | '+' :: cs => parseUnsigned cs
  | cs => parseUnsigned cs

/-- Leading and trailing whitespace removed. -/
def trimChars (cs : List Char) : List Char :=
  ((cs.dropWhile (fun c => c.isWhitespace)).reverse.dropWhile
    (fun c => c.isWhitespace)).reverse

/-- JavaScript `Number(s)` for a string `s` (decimal fragment). -/
def strToNum (s : String) : JsNum :=
  let t := trimChars s.data
  if t.isEmpty then JsNum.num 0
  else
    match parseSigned t with
    | some q => JsNum.num q
    | none => JsNum.nan

/-- JavaScript `Number(x)` coercion of an attribute value. -/
def AttrValue.toNumber : AttrValue → JsNum
  | .n v => v
  | .s v => strToNum v
  | .b true => JsNum.num 1
  | .b false => JsNum.num 0

/-- JavaScript `String(x)` coercion of an attribute value. -/
def AttrValue.toJsString : AttrValue → String
  | .s v => v
  | .b true => "true"
  | .b false => "false"
  | .n JsNum.nan => "NaN"
  | .n (JsNum.num q) => toString q

/-- JavaScript truthiness of an attribute value. -/
def AttrValue.truthy : AttrValue → Bool
  | .s v => !v.isEmpty
  | .n (JsNum.num q) => q != 0
  | .n JsNum.nan => false
  | .b v => v

/-- An attribute map, keyed by unique strings. -/
abbrev Attrs := List (String × AttrValue)

/-- Property lookup on an attribute map. -/
def getAttr (a : Attrs) (k : String) : Option AttrValue :=
  match a with
  | [] => none
  | (k0, v) :: rest => if k0 = k then some v else getAttr rest k

/-- A span event as in `ui/src/types.ts`. -/
structure SpanEvent where
  name : String
  time_unix_nano : ℕ
  attributes : Attrs
deriving DecidableEq, Repr

/-- A span as in `ui/src/types.ts`. -/
structure Span where
  trace_id : String
  span_id : String
  parent_span_id : Option String
  name : String
  start_time_unix_nano : ℕ
  end_time_unix_nano : ℕ
  status_code : ℕ
  attributes : Attrs
  events : List SpanEvent
deriving DecidableEq, Repr

/-- Decoded `yuu.cost` event.  Fields that the source merely casts
(`as ...`) keep the raw attribute value. -/
structure CostEvent where
  category : AttrValue
  currency : AttrValue
  amount : JsNum
  source : Option AttrValue
  pricingId : Option AttrValue
  llmProvider : Option AttrValue
  llmModel : Option AttrValue
  llmRequestId : Option AttrValue
  toolName : Option AttrValue
  toolCallId : Option AttrValue
deriving DecidableEq, Repr

/-- Decoded `yuu.llm.usage` event. -/
structure LlmUsageEvent where
  provider : String
  model : String
  requestId : Option AttrValue
  inputTokens : JsNum
  outputTokens : JsNum
  cacheReadTokens : JsNum
  cacheWriteTokens : JsNum
  totalTokens : Option JsNum
deriving DecidableEq, Repr

/-- Decoded `yuu.tool.usage` event. -/
structure ToolUsageEvent where
  name : String
  callId : Option AttrValue
  unit : String
  quantity : JsNum
deriving DecidableEq, Repr

/-- The single-event cost extractor `parseCostEvent` of `parse.ts`. -/
def parseCostEvent (ev : SpanEvent) : Option CostEvent :=
  let a := ev.attributes
  match getAttr a "yuu.cost.amount" with
  | none => none
  | some amount => some
      { category := (getAttr a "yuu.cost.category").getD (AttrValue.s "llm")
        currency := (getAttr a "yuu.cost.currency").getD (AttrValue.s "USD")
        amount := amount.toNumber
        source := getAttr a "yuu.cost.source"
        pricingId := getAttr a "yuu.cost.pricing_id"
        llmProvider := getAttr a "yuu.llm.provider"
        llmModel := getAttr a "yuu.llm.model"
        llmRequestId := getAttr a "yuu.llm.request_id"
        toolName := getAttr a "yuu.tool.name"
        toolCallId := getAttr a "yuu.tool.call_id" }

/-- The single-event usage extractor `parseLlmUsageEvent` of `parse.ts`. -/
def parseLlmUsageEvent (ev : SpanEvent) : Option LlmUsageEvent :=
  let a := ev.attributes
  match getAttr a "yuu.llm.provider" with
  | none => none
  | some provider => some
      { provider := provider.toJsString
        model := ((getAttr a "yuu.llm.model").getD (AttrValue.s "")).toJsString
        requestId := getAttr a "yuu.llm.request_id"
        inputTokens :=
          ((getAttr a "yuu.llm.usage.input_tokens").getD
            (AttrValue.n (JsNum.num 0))).toNumber
        outputTokens :=
          ((getAttr a "yuu.llm.usage.output_tokens").getD
            (AttrValue.n (JsNum.num 0))).toNumber
        cacheReadTokens :=
          ((getAttr a "yuu.llm.usage.cache_read_tokens").getD
            (AttrValue.n (JsNum.num 0))).toNumber
        cacheWriteTokens :=
          ((getAttr a "yuu.llm.usage.cache_write_tokens").getD
            (AttrValue.n (JsNum.num 0))).toNumber
        totalTokens :=
          (getAttr a "yuu.llm.usage.total_tokens").map AttrValue.toNumber }

/-- The single-event tool extractor `parseToolUsageEvent` of `parse.ts`. -/
def parseToolUsageEvent (ev : SpanEvent) : Option ToolUsageEvent :=
  let a := ev.attributes
  match getAttr a "yuu.tool.name" with
  | none => none
  | some name => some
      { name := name.toJsString
        callId := getAttr a "yuu.tool.call_id"
        unit := ((getAttr a "yuu.tool.usage.unit").getD (AttrValue.s "")).toJsString
        quantity :=
          ((getAttr a "yuu.tool.usage.quantity").getD
            (AttrValue.n (JsNum.num 0))).toNumber }

/-- Span-level extractor `extractCostEvents`: filter by event name, decode,
drop failures (the source's filter-map-filter pipeline is `filterMap`). -/
def extractCostEvents (span : Span) : List CostEvent :=
  (span.events.filter (fun e => e.name == "yuu.cost")).filterMap parseCostEvent

/-- Span-level extractor `extractLlmUsageEvents`. -/
def extractLlmUsageEvents (span : Span) : List LlmUsageEvent :=
  (span.events.filter (fun e => e.name == "yuu.llm.usage")).filterMap
    parseLlmUsageEvent

/-- Span-level extractor `extractToolUsageEvents`. -/
def extractToolUsageEvents (span : Span) : List ToolUsageEvent :=
  (span.events.filter (fun e => e.name == "yuu.tool.usage")).filterMap
    parseToolUsageEvent

/-- Result record of `parseConversation`. -/
structure ParsedConversation where
  costs : List CostEvent
  usages : List LlmUsageEvent
  toolUsages : List ToolUsageEvent
deriving DecidableEq, Repr

/-- Conversation-level aggregation `parseConversation`: the source loops
over the spans pushing each span's extracted events, i.e. a left fold
appending per-span extractions. -/
def parseConversation (spans : List Span) : ParsedConversation :=
  { costs := spans.foldl (fun acc s => acc ++ extractCostEvents s) []
    usages := spans.foldl (fun acc s => acc ++ extractLlmUsageEvents s) []
    toolUsages := spans.foldl (fun acc s => acc ++ extractToolUsageEvents s) [] }

/-- Lookup in a JavaScript `Map` modelled as an association list. -/
def mapGet {K V : Type} [DecidableEq K] (m : List (K × V)) (k : K) : Option V :=
  match m with
  | [] => none
  | (k0, v0) :: rest => if k0 = k then some v0 else mapGet rest k

/-- Upsert in a JavaScript `Map`: replace in place, else append. -/
def mapSet {K V : Type} [DecidableEq K] (m : List (K × V)) (k : K) (v : V) :
    List (K × V) :=
  match m with
  | [] => [(k, v)]
  | (k0, v0) :: rest =>
      if k0 = k then (k0, v) :: rest else (k0, v0) :: mapSet rest k v

/-- The running total of `CostSummary`:
`costs.reduce((s, c) => s + c.amount, 0)`. -/
def costTotal (costs : List CostEvent) : JsNum :=
  costs.foldl (fun s c => s + c.amount) (JsNum.num 0)

/-- The `byCategory` map of `CostSummary`. -/
def costByCategory (costs : List CostEvent) : List (AttrValue × JsNum) :=
  costs.foldl
    (fun m c =>
      mapSet m c.category ((mapGet m c.category).getD (JsNum.num 0) + c.amount))
    []

/-- The `byModel` map of `CostSummary`: only events with
`category === "llm"` and a truthy `llmModel` are grouped. -/
def costByModel (costs : List CostEvent) : List (AttrValue × JsNum) :=
  costs.foldl
    (fun m c =>
      if c.category == AttrValue.s "llm" then
        match c.llmModel with
        | some mdl =>
            if mdl.truthy then
              mapSet m mdl ((mapGet m mdl).getD (JsNum.num 0) + c.amount)
            else m
        | none => m
      else m)
    []

/-- An aggregated per-model usage row of `UsageSummary`. -/
structure ModelUsage where
  model : String
  provider : String
  inputTokens : JsNum
  outputTokens : JsNum
  cacheReadTokens : JsNum
  cacheWriteTokens : JsNum
  requests : ℕ
deriving DecidableEq, Repr

/-- The grouping key of `UsageSummary`: the template literal
`provider/model`. -/
def usageKey (u : LlmUsageEvent) : String := u.provider ++ "/" ++ u.model

/-- One `UsageSummary` loop iteration on the value stored at the key:
add into the existing row, or start a fresh row. -/
def usageStep (ex : Option ModelUsage) (u : LlmUsageEvent) : ModelUsage :=
  match ex with
  | some ex =>
      { ex with
        inputTokens := ex.inputTokens + u.inputTokens
        outputTokens := ex.outputTokens + u.outputTokens
        cacheReadTokens := ex.cacheReadTokens + u.cacheReadTokens
        cacheWriteTokens := ex.cacheWriteTokens + u.cacheWriteTokens
        requests := ex.requests + 1 }
  | none =>
      { model := u.model
        provider := u.provider
        inputTokens := u.inputTokens
        outputTokens := u.outputTokens
        cacheReadTokens := u.cacheReadTokens
        cacheWriteTokens := u.cacheWriteTokens
        requests := 1 }

/-- The `byModel` map of `UsageSummary`. -/
def usageByModel (usages : List LlmUsageEvent) : List (String × ModelUsage) :=
  usages.foldl
    (fun m u => mapSet m (usageKey u) (usageStep (mapGet m (usageKey u)) u))
    []

/-- Input-token reading of an optional usage row (0 when absent). -/
def muInput (r : Option ModelUsage) : JsNum :=
  (r.map ModelUsage.inputTokens).getD (JsNum.num 0)

/-- Output-token reading of an optional usage row. -/
def muOutput (r : Option ModelUsage) : JsNum :=
  (r.map ModelUsage.outputTokens).getD (JsNum.num 0)

/-- Cache-read-token reading of an optional usage row. -/
def muCacheRead (r : Option ModelUsage) : JsNum :=
  (r.map ModelUsage.cacheReadTokens).getD (JsNum.num 0)

/-- Cache-write-token reading of an optional usage row. -/
def muCacheWrite (r : Option ModelUsage) : JsNum :=
  (r.map ModelUsage.cacheWriteTokens).getD (JsNum.num 0)

/-- Request-count reading of an optional usage row. -/
def muRequests (r : Option ModelUsage) : ℕ :=
  (r.map ModelUsage.requests).getD 0

/-- The guard of the `byModel` loop: LLM category and truthy model. -/
def costModelGuard (c : CostEvent) : Bool :=
  (c.category == AttrValue.s "llm") && (c.llmModel.getD (AttrValue.s "")).truthy

/-- The grouping key of the `byModel` loop (only read under the guard). -/
def costModelKey (c : CostEvent) : AttrValue :=
  c.llmModel.getD (AttrValue.s "")

/-! Concrete sample data used as witnesses and counterexamples. -/

/-- Sample: a cost event attributed in USD, amount 1. -/
def evUSD : SpanEvent :=
  { name := "yuu.cost", time_unix_nano := 0
    attributes := [("yuu.cost.amount", AttrValue.n (JsNum.num 1)),
                   ("yuu.cost.currency", AttrValue.s "USD")] }

/-- Sample: a cost event attributed in EUR, amount 2. -/
def evEUR : SpanEvent :=
  { name := "yuu.cost", time_unix_nano := 0
    attributes := [("yuu.cost.amount", AttrValue.n (JsNum.num 2)),
                   ("yuu.cost.currency", AttrValue.s "EUR")] }

/-- Sample: a span carrying cost events in two different currencies. -/
def spanMixed : Span :=
  { trace_id := "t", span_id := "s1", parent_span_id := none
    name := "llm_gen", start_time_unix_nano := 0, end_time_unix_nano := 1
    status_code := 0, attributes := [], events := [evUSD, evEUR] }

/-- The decoding of `evUSD`. -/
def cMixedUSD : CostEvent :=
  { category := AttrValue.s "llm", currency := AttrValue.s "USD"
    amount := JsNum.num 1, source := none, pricingId := none
    llmProvider := none, llmModel := none, llmRequestId := none
    toolName := none, toolCallId := none }

/-- The decoding of `evEUR`. -/
def cMixedEUR : CostEvent :=
  { category := AttrValue.s "llm", currency := AttrValue.s "EUR"
    amount := JsNum.num 2, source := none, pricingId := none
    llmProvider := none, llmModel := none, llmRequestId := none
    toolName := none, toolCallId := none }

/-- Sample: a cost event whose amount attribute is a non-numeric string. -/
def evBadAmount : SpanEvent :=
  { name := "yuu.cost", time_unix_nano := 0
    attributes := [("yuu.cost.amount", AttrValue.s "abc")] }

/-- Sample: a span carrying the malformed-amount cost event. -/
def spanBadAmount : Span :=
  { trace_id := "t", span_id := "s2", parent_span_id := none
    name := "llm_gen", start_time_unix_nano := 0, end_time_unix_nano := 1
    status_code := 0, attributes := [], events := [evBadAmount] }

/-- Sample: the spec test event `{llm, USD, 0.002}`. -/
def ev002 : SpanEvent :=
  { name := "yuu.cost", time_unix_nano := 0
    attributes := [("yuu.cost.amount", AttrValue.n (JsNum.num (2 / 1000))),
                   ("yuu.cost.category", AttrValue.s "llm"),
                   ("yuu.cost.currency", AttrValue.s "USD")] }

/-- Sample: the spec test event `{llm, USD, 0.003}`. -/
def ev003 : SpanEvent :=
  { name := "yuu.cost", time_unix_nano := 0
    attributes := [("yuu.cost.amount", AttrValue.n (JsNum.num (3 / 1000))),
                   ("yuu.cost.category", AttrValue.s "llm"),
                   ("yuu.cost.currency", AttrValue.s "USD")] }

/-- Sample: a span carrying the 0.002 cost event. -/
def span002 : Span :=
  { trace_id := "t", span_id := "s3", parent_span_id := none
    name := "llm_gen", start_time_unix_nano := 0, end_time_unix_nano := 1
    status_code := 0, attributes := [], events := [ev002] }

/-- Sample: a span carrying the 0.003 cost event. -/
def span003 : Span :=
  { trace_id := "t", span_id := "s4", parent_span_id := none
    name := "llm_gen", start_time_unix_nano := 0, end_time_unix_nano := 1
    status_code := 0, attributes := [], events := [ev003] }

/-- Sample: usage with a slash inside the provider. -/
def uSlashProvider : LlmUsageEvent :=
  { provider := "a/b", model := "c", requestId := none
    inputTokens := JsNum.num 1, outputTokens := JsNum.num 0
    cacheReadTokens := JsNum.num 0, cacheWriteTokens := JsNum.num 0
    totalTokens := none }

/-- Sample: usage with a slash inside the model. -/
def uSlashModel : LlmUsageEvent :=
  { provider := "a", model := "b/c", requestId := none
    inputTokens := JsNum.num 2, outputTokens := JsNum.num 0
    cacheReadTokens := JsNum.num 0, cacheWriteTokens := JsNum.num 0
    totalTokens := none }

/-- Sample: an LLM cost event whose model is the empty string. -/
def costEmptyModel : CostEvent :=
  { category := AttrValue.s "llm", currency := AttrValue.s "USD"
    amount := JsNum.num 1, source := none, pricingId := none
    llmProvider := none, llmModel := some (AttrValue.s ""), llmRequestId := none
    toolName := none, toolCallId := none }

/-- Sample: an LLM cost event with model `m`, amount 2. -/
def costNamedModel : CostEvent :=
  { category := AttrValue.s "llm", currency := AttrValue.s "USD"
    amount := JsNum.num 2, source := none, pricingId := none
    llmProvider := none, llmModel := some (AttrValue.s "m"), llmRequestId := none
    toolName := none, toolCallId := none }

/-- Sample: a cost event carrying only the amount attribute. -/
def evDefaults : SpanEvent :=
  { name := "yuu.cost", time_unix_nano := 0
    attributes := [("yuu.cost.amount", AttrValue.n (JsNum.num 1))] }

/-- Sample: a span carrying only the defaults cost event. -/
def spanDefaults : Span :=
  { trace_id := "t", span_id := "s5", parent_span_id := none
    name := "llm_gen", start_time_unix_nano := 0, end_time_unix_nano := 1
    status_code := 0, attributes := [], events := [evDefaults] }

/-- The decoding of `evDefaults`: both defaults applied. -/
def cDefault : CostEvent :=
  { category := AttrValue.s "llm", currency := AttrValue.s "USD"
    amount := JsNum.num 1, source := none, pricingId := none
    llmProvider := none, llmModel := none, llmRequestId := none
    toolName := none, toolCallId := none }

/-- Sample: a usage event carrying only the provider attribute. -/
def evProviderOnly : SpanEvent :=
  { name := "yuu.llm.usage", time_unix_nano := 0
    attributes := [("yuu.llm.provider", AttrValue.s "openai")] }

/-- The decoding of `evProviderOnly`: all defaults applied. -/
def uOpenai : LlmUsageEvent :=
  { provider := "openai", model := "", requestId := none
    inputTokens := JsNum.num 0, outputTokens := JsNum.num 0
    cacheReadTokens := JsNum.num 0, cacheWriteTokens := JsNum.num 0
    totalTokens := none }

/-- Sample: a usage event with provider, model and input tokens. -/
def evUsage1 : SpanEvent :=
  { name := "yuu.llm.usage", time_unix_nano := 0
    attributes := [("yuu.llm.provider", AttrValue.s "p"),
                   ("yuu.llm.model", AttrValue.s "m"),
                   ("yuu.llm.usage.input_tokens", AttrValue.n (JsNum.num 5))] }

/-- Sample: a span with a cost event then a usage event. -/
def spanP1 : Span :=
  { trace_id := "t", span_id := "p1", parent_span_id := none
    name := "llm_gen", start_time_unix_nano := 0, end_time_unix_nano := 1
    status_code := 0, attributes := [], events := [evDefaults, evUsage1] }

/-- Sample: `spanP1` with its two events swapped. -/
def spanP1r : Span :=
  { trace_id := "t", span_id := "p1", parent_span_id := none
    name := "llm_gen", start_time_unix_nano := 0, end_time_unix_nano := 1
    status_code := 0, attributes := [], events := [evUsage1, evDefaults] }

/-- Sample: a second span carrying the 0.003 cost event. -/
def spanP2 : Span :=
  { trace_id := "t", span_id := "p2", parent_span_id := none
    name := "tool_call", start_time_unix_nano := 0, end_time_unix_nano := 1
    status_code := 0, attributes := [], events := [ev003] }

/-! Helper lemmas about the association-list Map model and the folds. -/

theorem num_add_num (x y : ℚ) : JsNum.num x + JsNum.num y = JsNum.num (x + y) := rfl

theorem num_zero_add (a : JsNum) : JsNum.num 0 + a = a := zero_add a

theorem add_num_zero (a : JsNum) : a + JsNum.num 0 = a := add_zero a

theorem mapGet_nil {K V : Type} [DecidableEq K] (k : K) :
    mapGet ([] : List (K × V)) k = none := rfl

theorem mapGet_mapSet {K V : Type} [DecidableEq K]
    (m : List (K × V)) (k k' : K) (v : V) :
    mapGet (mapSet m k v) k' = if k = k' then some v else mapGet m k' := by
  induction m with
  | nil => simp [mapGet, mapSet]
  | cons p rest ih =>
      obtain ⟨k0, v0⟩ := p
      by_cases h0 : k0 = k
      · subst h0
        by_cases h1 : k0 = k' <;> simp [mapGet, mapSet, h1]
      · by_cases h1 : k0 = k'
        · subst h1
          have : ¬k = k0 := fun h => h0 h.symm
          simp [mapGet, mapSet, h0, this]
        · simp [mapGet, mapSet, h0, h1, ih]

theorem foldl_append_eq_flatMap {α β : Type} (f : α → List β) :
    ∀ (l : List α) (acc : List β),
      l.foldl (fun a s => a ++ f s) acc = acc ++ l.flatMap f := by
  intro l
  induction l with
  | nil => intro acc; simp
  | cons x xs ih => intro acc; simp [ih]

theorem parseConversation_costs (spans : List Span) :
    (parseConversation spans).costs = spans.flatMap extractCostEvents := by
  simp [parseConversation, foldl_append_eq_flatMap]

theorem parseConversation_usages (spans : List Span) :
    (parseConversation spans).usages = spans.flatMap extractLlmUsageEvents := by
  simp [parseConversation, foldl_append_eq_flatMap]

theorem parseConversation_toolUsages (spans : List Span) :
    (parseConversation spans).toolUsages = spans.flatMap extractToolUsageEvents := by
  simp [parseConversation, foldl_append_eq_flatMap]

theorem flatMap_filterMap_events {γ : Type} (nm : String) (p : SpanEvent → Option γ)
    (spans : List Span) :
    spans.flatMap (fun s => (s.events.filter (fun e => e.name == nm)).filterMap p)
      = ((spans.flatMap Span.events).filter (fun e => e.name == nm)).filterMap p := by
  induction spans with
  | nil => rfl
  | cons s rest ih =>
      simp [List.flatMap_cons, List.filter_append, List.filterMap_append, ih]

theorem foldl_add_eq {α : Type} (f : α → JsNum) :
    ∀ (l : List α) (a : JsNum),
      l.foldl (fun s c => s + f c) a = a + (l.map f).sum := by
  intro l
  induction l with
  | nil => intro a; simp
  | cons x xs ih => intro a; simp [ih, add_assoc]

theorem costTotal_eq_sum (costs : List CostEvent) :
    costTotal costs = (costs.map CostEvent.amount).sum := by
  rw [costTotal, foldl_add_eq, num_zero_add]

theorem mapGet_foldl_upsert {α K V : Type} [DecidableEq K]
    (key : α → K) (upd : Option V → α → V) :
    ∀ (l : List α) (m : List (K × V)) (k : K),
      mapGet (l.foldl (fun m a => mapSet m (key a) (upd (mapGet m (key a)) a)) m) k
        = (l.filter (fun a => key a == k)).foldl (fun o a => some (upd o a))
            (mapGet m k) := by
  intro l
  induction l with
  | nil => intro m k; rfl
  | cons a l ih =>
      intro m k
      by_cases h : key a = k
      · subst h
        simp [List.filter_cons, ih, mapGet_mapSet]
      · have hb : (key a == k) = false := by simpa using h
        simp [List.filter_cons, hb, ih, mapGet_mapSet, h]

theorem foldl_some_add {α : Type} (f : α → JsNum) :
    ∀ (l : List α) (o : Option JsNum),
      (l.foldl (fun o a => some (o.getD (JsNum.num 0) + f a)) o).getD (JsNum.num 0)
        = o.getD (JsNum.num 0) + (l.map f).sum := by
  intro l
  induction l with
  | nil => intro o; simp
  | cons x xs ih => intro o; simp [ih, add_assoc]

theorem costByCategory_getD (costs : List CostEvent) (cat : AttrValue) :
    (mapGet (costByCategory costs) cat).getD (JsNum.num 0)
      = ((costs.filter (fun c => c.category == cat)).map CostEvent.amount).sum := by
  have h := mapGet_foldl_upsert CostEvent.category
    (fun o c => o.getD (JsNum.num 0) + c.amount) costs [] cat
  have h2 := foldl_some_add CostEvent.amount
    (costs.filter (fun c => c.category == cat)) none
  rw [costByCategory, h, mapGet_nil, h2]
  simp [num_zero_add]

theorem valuesSum_mapSet_upsert {K : Type} [DecidableEq K] :
    ∀ (m : List (K × JsNum)) (k : K) (a : JsNum),
      ((mapSet m k ((mapGet m k).getD (JsNum.num 0) + a)).map Prod.snd).sum
        = (m.map Prod.snd).sum + a := by
  intro m
  induction m with
  | nil => intro k a; simp [mapGet, mapSet, num_zero_add]
  | cons p rest ih =>
      intro k a
      obtain ⟨k0, v0⟩ := p
      by_cases h : k0 = k
      · subst h
        simp [mapGet, mapSet]
        abel
      · simp [mapGet, mapSet, h, ih]
        abel

theorem valuesSum_costByCategory_aux :
    ∀ (l : List CostEvent) (m : List (AttrValue × JsNum)),
      ((l.foldl (fun m c =>
          mapSet m c.category
            ((mapGet m c.category).getD (JsNum.num 0) + c.amount)) m).map
        Prod.snd).sum
        = (m.map Prod.snd).sum + (l.map CostEvent.amount).sum := by
  intro l
  induction l with
  | nil => intro m; simp
  | cons c cs ih =>
      intro m
      simp only [List.foldl_cons, List.map_cons, List.sum_cons]
      rw [ih, valuesSum_mapSet_upsert]
      abel

theorem valuesSum_costByCategory (costs : List CostEvent) :
    ((costByCategory costs).map Prod.snd).sum = costTotal costs := by
  rw [costByCategory, valuesSum_costByCategory_aux, costTotal_eq_sum]
  simp

theorem muInput_usageStep (o : Option ModelUsage) (u : LlmUsageEvent) :
    muInput (some (usageStep o u)) = muInput o + u.inputTokens := by
  cases o <;> simp [muInput, usageStep, num_zero_add]

theorem muOutput_usageStep (o : Option ModelUsage) (u : LlmUsageEvent) :
    muOutput (some (usageStep o u)) = muOutput o + u.outputTokens := by
  cases o <;> simp [muOutput, usageStep, num_zero_add]

theorem muCacheRead_usageStep (o : Option ModelUsage) (u : LlmUsageEvent) :
    muCacheRead (some (usageStep o u)) = muCacheRead o + u.cacheReadTokens := by
  cases o <;> simp [muCacheRead, usageStep, num_zero_add]

theorem muCacheWrite_usageStep (o : Option ModelUsage) (u : LlmUsageEvent) :
    muCacheWrite (some (usageStep o u)) = muCacheWrite o + u.cacheWriteTokens := by
  cases o <;> simp [muCacheWrite, usageStep, num_zero_add]

theorem muRequests_usageStep (o : Option ModelUsage) (u : LlmUsageEvent) :
    muRequests (some (usageStep o u)) = muRequests o + 1 := by
  cases o <;> simp [muRequests, usageStep]

theorem usageFold_input :
    ∀ (l : List LlmUsageEvent) (o : Option ModelUsage),
      muInput (l.foldl (fun o u => some (usageStep o u)) o)
        = muInput o + (l.map LlmUsageEvent.inputTokens).sum := by
  intro l
  induction l with
  | nil => intro o; simp
  | cons u us ih => intro o; simp [ih, muInput_usageStep, add_assoc]

theorem usageFold_output :
    ∀ (l : List LlmUsageEvent) (o : Option ModelUsage),
      muOutput (l.foldl (fun o u => some (usageStep o u)) o)
        = muOutput o + (l.map LlmUsageEvent.outputTokens).sum := by
  intro l
  induction l with
  | nil => intro o; simp
  | cons u us ih => intro o; simp [ih, muOutput_usageStep, add_assoc]

theorem usageFold_cacheRead :
    ∀ (l : List LlmUsageEvent) (o : Option ModelUsage),
      muCacheRead (l.foldl (fun o u => some (usageStep o u)) o)
        = muCacheRead o + (l.map LlmUsageEvent.cacheReadTokens).sum := by
  intro l
  induction l with
  | nil => intro o; simp
  | cons u us ih => intro o; simp [ih, muCacheRead_usageStep, add_assoc]

theorem usageFold_cacheWrite :
    ∀ (l : List LlmUsageEvent) (o : Option ModelUsage),
      muCacheWrite (l.foldl (fun o u => some (usageStep o u)) o)
        = muCacheWrite o + (l.map LlmUsageEvent.cacheWriteTokens).sum := by
  intro l
  induction l with
  | nil => intro o; simp
  | cons u us ih => intro o; simp [ih, muCacheWrite_usageStep, add_assoc]

theorem usageFold_requests :
    ∀ (l : List LlmUsageEvent) (o : Option ModelUsage),
      muRequests (l.foldl (fun o u => some (usageStep o u)) o)
        = muRequests o + l.length := by
  intro l
  induction l with
  | nil => intro o; simp
  | cons u us ih =>
      intro o
      simp [ih, muRequests_usageStep]
      omega

/-- Per-key characterisation of the `UsageSummary` grouping: the row at
key `k` carries exactly the componentwise sums, and the request count,
over the events whose key is `k`. -/
theorem usageByModel_group (usages : List LlmUsageEvent) (k : String) :
    muInput (mapGet (usageByModel usages) k)
        = ((usages.filter (fun u => usageKey u == k)).map
            LlmUsageEvent.inputTokens).sum
      ∧ muOutput (mapGet (usageByModel usages) k)
        = ((usages.filter (fun u => usageKey u == k)).map
            LlmUsageEvent.outputTokens).sum
      ∧ muCacheRead (mapGet (usageByModel usages) k)
        = ((usages.filter (fun u => usageKey u == k)).map
            LlmUsageEvent.cacheReadTokens).sum
      ∧ muCacheWrite (mapGet (usageByModel usages) k)
        = ((usages.filter (fun u => usageKey u == k)).map
            LlmUsageEvent.cacheWriteTokens).sum
      ∧ muRequests (mapGet (usageByModel usages) k)
        = (usages.filter (fun u => usageKey u == k)).length := by
  have h := mapGet_foldl_upsert usageKey usageStep usages [] k
  rw [usageByModel, h, mapGet_nil]
  refine ⟨?_, ?_, ?_, ?_, ?_⟩
  · rw [usageFold_input]; simp [muInput, num_zero_add]
  · rw [usageFold_output]; simp [muOutput, num_zero_add]
  · rw [usageFold_cacheRead]; simp [muCacheRead, num_zero_add]
  · rw [usageFold_cacheWrite]; simp [muCacheWrite, num_zero_add]
  · rw [usageFold_requests]; simp [muRequests]

theorem costByModel_eq_filtered_aux :
    ∀ (l : List CostEvent) (m : List (AttrValue × JsNum)),
      l.foldl
        (fun m c =>
          if c.category == AttrValue.s "llm" then
            match c.llmModel with
            | some mdl =>
                if mdl.truthy then
                  mapSet m mdl ((mapGet m mdl).getD (JsNum.num 0) + c.amount)
                else m
            | none => m
          else m) m
      = (l.filter costModelGuard).foldl
          (fun m c =>
            mapSet m (costModelKey c)
              ((mapGet m (costModelKey c)).getD (JsNum.num 0) + c.amount)) m := by
  intro l
  induction l with
  | nil => intro m; rfl
  | cons c cs ih =>
      intro m
      have hse : (AttrValue.s "").truthy = false := by decide
      by_cases hcat : c.category = AttrValue.s "llm"
      · cases hm : c.llmModel with
        | none =>
            simpa [List.filter_cons, costModelGuard, hcat, hm, hse] using ih m
        | some mdl =>
            by_cases ht : mdl.truthy
            · simpa [List.filter_cons, costModelGuard, costModelKey, hcat, hm, ht]
                using ih (mapSet m mdl ((mapGet m mdl).getD (JsNum.num 0) + c.amount))
            · simpa [List.filter_cons, costModelGuard, costModelKey, hcat, hm, ht]
                using ih m
      · simpa [List.filter_cons, costModelGuard, hcat] using ih m

theorem costByModel_eq_filtered (costs : List CostEvent) :
    costByModel costs
      = (costs.filter costModelGuard).foldl
          (fun m c =>
            mapSet m (costModelKey c)
              ((mapGet m (costModelKey c)).getD (JsNum.num 0) + c.amount)) [] := by
  rw [costByModel, costByModel_eq_filtered_aux]

/-- Per-key characterisation of the `byModel` cost map for a truthy
model value: it carries the sum over the LLM events with that model. -/
theorem costByModel_getD (costs : List CostEvent) (mdl : AttrValue)
    (ht : mdl.truthy = true) :
    (mapGet (costByModel costs) mdl).getD (JsNum.num 0)
      = ((costs.filter (fun c =>
            c.category == AttrValue.s "llm" && c.llmModel == some mdl)).map
          CostEvent.amount).sum := by
  rw [costByModel_eq_filtered]
  have h := mapGet_foldl_upsert costModelKey
    (fun o c => o.getD (JsNum.num 0) + c.amount) (costs.filter costModelGuard) [] mdl
  rw [h, mapGet_nil]
  have h2 := foldl_some_add CostEvent.amount
    (((costs.filter costModelGuard)).filter fun a => costModelKey a == mdl) none
  rw [h2, List.filter_filter]
  have hpred : ∀ c ∈ costs,
      ((costModelKey c == mdl) && costModelGuard c)
        = (c.category == AttrValue.s "llm" && c.llmModel == some mdl) := by
    intro c _
    have hse : (AttrValue.s "").truthy = false := by decide
    cases hm : c.llmModel with
    | none => simp [costModelKey, costModelGuard, hm, hse]
    | some x =>
        by_cases hx : x = mdl
        · subst hx
          simp [costModelKey, costModelGuard, hm, ht]
        · have hxb : (x == mdl) = false := by simpa using hx
          have hxo : ((some x : Option AttrValue) == some mdl) = false := by
            simpa using hx
          simp [costModelKey, costModelGuard, hm, hxb, hxo]
  rw [List.filter_congr hpred]
  simp [num_zero_add]

/-- Permuting a span's events permutes its extracted cost events. -/
theorem extractCostEvents_perm {s t : Span} (hp : s.events.Perm t.events) :
    (extractCostEvents s).Perm (extractCostEvents t) :=
  (hp.filter _).filterMap _

/-- Permuting a span's events permutes its extracted usage events. -/
theorem extractLlmUsageEvents_perm {s t : Span} (hp : s.events.Perm t.events) :
    (extractLlmUsageEvents s).Perm (extractLlmUsageEvents t) :=
  (hp.filter _).filterMap _

/-- Permuting a span's events permutes its extracted tool events. -/
theorem extractToolUsageEvents_perm {s t : Span} (hp : s.events.Perm t.events) :
    (extractToolUsageEvents s).Perm (extractToolUsageEvents t) :=
  (hp.filter _).filterMap _

/-- Reordering the span list, and the event list inside each span,
permutes every per-span flattened extraction. -/
theorem flatMap_extract_perm {γ : Type} (ext : Span → List γ)
    (hext : ∀ s t : Span, s.events.Perm t.events → (ext s).Perm (ext t))
    {spans1 mid spans2 : List Span} (hperm : spans1.Perm mid)
    (hev : List.Forall₂
      (fun s t => s.events.Perm t.events ∧
        ({ s with events := t.events } : Span) = t) mid spans2) :
    (spans1.flatMap ext).Perm (spans2.flatMap ext) := by
  refine (hperm.flatMap_right ext).trans ?_
  have h2 : List.Forall₂ (fun a b => a.Perm b)
      (mid.map ext) (spans2.map ext) := by
    rw [List.forall₂_map_left_iff, List.forall₂_map_right_iff]
    exact hev.imp (fun s t h => hext s t h.1)
  rw [List.flatMap_def, List.flatMap_def]
  exact List.Perm.flatten_congr h2

theorem nan_add (a : JsNum) : JsNum.nan + a = JsNum.nan := by
  cases a <;> rfl

theorem add_nan (a : JsNum) : a + JsNum.nan = JsNum.nan := by
  cases a <;> rfl

theorem sum_of_mem_nan : ∀ (l : List JsNum), JsNum.nan ∈ l → l.sum = JsNum.nan := by
  intro l
  induction l with
  | nil => intro h; cases h
  | cons x xs ih =>
      intro h
      rcases List.mem_cons.mp h with h | h
      · rw [List.sum_cons, ← h, nan_add]
      · rw [List.sum_cons, ih h, add_nan]

theorem costTotal_nan {costs : List CostEvent} {c : CostEvent}
    (hc : c ∈ costs) (hn : c.amount = JsNum.nan) :
    costTotal costs = JsNum.nan := by
  rw [costTotal_eq_sum]
  exact sum_of_mem_nan _ (hn ▸ List.mem_map_of_mem CostEvent.amount hc)

theorem costs_flat (spans : List Span) :
    (parseConversation spans).costs
      = ((spans.flatMap Span.events).filter
          (fun e => e.name == "yuu.cost")).filterMap parseCostEvent := by
  rw [parseConversation_costs, ← flatMap_filterMap_events]
  rfl

theorem usages_flat (spans : List Span) :
    (parseConversation spans).usages
      = ((spans.flatMap Span.events).filter
          (fun e => e.name == "yuu.llm.usage")).filterMap parseLlmUsageEvent := by
  rw [parseConversation_usages, ← flatMap_filterMap_events]
  rfl

theorem toolUsages_flat (spans : List Span) :
    (parseConversation spans).toolUsages
      = ((spans.flatMap Span.events).filter
          (fun e => e.name == "yuu.tool.usage")).filterMap parseToolUsageEvent := by
  rw [parseConversation_toolUsages, ← flatMap_filterMap_events]
  rfl

/-! Claim theorems. -/

/-- C1 counterexample: a conversation whose decoded cost events carry
two distinct currencies (USD and EUR) still gets a single summed total
across both currencies (1 + 2 = 3), so the aggregation does not withhold
the cross-currency sum, and no mismatch flag exists to be surfaced. -/
theorem C1_counterexample :
    ((parseConversation [spanMixed]).costs.map CostEvent.currency)
        = [AttrValue.s "USD", AttrValue.s "EUR"]
      ∧ costTotal (parseConversation [spanMixed]).costs = JsNum.num 3 := by
  have h : (parseConversation [spanMixed]).costs = [cMixedUSD, cMixedEUR] := rfl
  refine ⟨by rw [h]; rfl, ?_⟩
  rw [h]
  have h2 : costTotal [cMixedUSD, cMixedEUR]
      = JsNum.num 0 + JsNum.num 1 + JsNum.num 2 := rfl
  rw [h2, num_add_num, num_add_num]
  norm_num

/-- C1 amended: for every conversation the aggregation exposes a single
total equal to the plain sum of all decoded cost amounts, regardless of
the currencies involved; no grouping by currency and no
currency-mismatch flag is computed. -/
theorem C1_total_ignores_currency (costs : List CostEvent) :
    costTotal costs = (costs.map CostEvent.amount).sum :=
  costTotal_eq_sum costs

/-- C4 counterexample: the events with (provider, model) pairs
`("a/b", "c")` and `("a", "b/c")` differ in both provider and model,
yet land in the same group `"a/b/c"`, which counts 2 requests and sums
their input tokens — so grouping is not by the pair (provider, model). -/
theorem C4_counterexample :
    (uSlashProvider.provider ≠ uSlashModel.provider
      ∧ uSlashProvider.model ≠ uSlashModel.model)
    ∧ muRequests (mapGet (usageByModel [uSlashProvider, uSlashModel]) "a/b/c") = 2
    ∧ muInput (mapGet (usageByModel [uSlashProvider, uSlashModel]) "a/b/c")
        = JsNum.num 3 := by
  refine ⟨by decide, by decide, ?_⟩
  have h : muInput (mapGet (usageByModel [uSlashProvider, uSlashModel]) "a/b/c")
      = JsNum.num 1 + JsNum.num 2 := rfl
  rw [h, num_add_num]
  norm_num

/-- C4 amended: the usage summary groups events by the concatenated
string key `provider ++ "/" ++ model`; the row at each key carries
exactly the componentwise token sums and the request count over the
events with that key (this coincides with grouping by the pair
(provider, model) whenever no provider contains a slash). -/
theorem C4_grouping_by_key (usages : List LlmUsageEvent) (k : String) :
    muInput (mapGet (usageByModel usages) k)
        = ((usages.filter (fun u => usageKey u == k)).map
            LlmUsageEvent.inputTokens).sum
      ∧ muOutput (mapGet (usageByModel usages) k)
        = ((usages.filter (fun u => usageKey u == k)).map
            LlmUsageEvent.outputTokens).sum
      ∧ muCacheRead (mapGet (usageByModel usages) k)
        = ((usages.filter (fun u => usageKey u == k)).map
            LlmUsageEvent.cacheReadTokens).sum
      ∧ muCacheWrite (mapGet (usageByModel usages) k)
        = ((usages.filter (fun u => usageKey u == k)).map
            LlmUsageEvent.cacheWriteTokens).sum
      ∧ muRequests (mapGet (usageByModel usages) k)
        = (usages.filter (fun u => usageKey u == k)).length :=
  usageByModel_group usages k

/-- C5: the aggregation considers exactly the events with the three
known delta names, drawn from every span's event list: each output list
is the decoding of precisely the events of the corresponding name in the
flattened event list, so differently-named events contribute nothing and
every successfully decoded known-name event appears. -/
theorem C5_known_event_names (spans : List Span) :
    (parseConversation spans).costs
        = ((spans.flatMap Span.events).filter
            (fun e => e.name == "yuu.cost")).filterMap parseCostEvent
      ∧ (parseConversation spans).usages
        = ((spans.flatMap Span.events).filter
            (fun e => e.name == "yuu.llm.usage")).filterMap parseLlmUsageEvent
      ∧ (parseConversation spans).toolUsages
        = ((spans.flatMap Span.events).filter
            (fun e => e.name == "yuu.tool.usage")).filterMap parseToolUsageEvent :=
  ⟨costs_flat spans, usages_flat spans, toolUsages_flat spans⟩

/-- C7 counterexample: an LLM cost event whose model attribute is the
empty string has amount 1, but the per-model map assigns nothing to the
model value `""` (empty string is falsy, so the event is skipped),
contradicting the claim that each model is assigned the sum of the
events with that llmModel. -/
theorem C7_counterexample :
    (([costEmptyModel].filter (fun c =>
        c.category == AttrValue.s "llm"
          && c.llmModel == some (AttrValue.s ""))).map
      CostEvent.amount).sum = JsNum.num 1
    ∧ mapGet (costByModel [costEmptyModel]) (AttrValue.s "") = none := by
  constructor
  · have h : (([costEmptyModel].filter (fun c =>
        c.category == AttrValue.s "llm"
          && c.llmModel == some (AttrValue.s ""))).map
        CostEvent.amount).sum = JsNum.num 1 + JsNum.num 0 := rfl
    rw [h, num_add_num]
    norm_num
  · rfl

/-- C7 amended: the per-category breakdown assigns to each category the
sum of the amounts of the events of that category, and the category
values together sum to the overall total; the per-model breakdown
assigns to each truthy model value the sum of the amounts of the LLM
events with that llmModel (events with an absent or falsy llmModel are
omitted from the per-model breakdown). -/
theorem C7_breakdowns (costs : List CostEvent) :
    (∀ cat, (mapGet (costByCategory costs) cat).getD (JsNum.num 0)
        = ((costs.filter (fun c => c.category == cat)).map
            CostEvent.amount).sum)
    ∧ ((costByCategory costs).map Prod.snd).sum = costTotal costs
    ∧ ∀ mdl : AttrValue, mdl.truthy = true →
        (mapGet (costByModel costs) mdl).getD (JsNum.num 0)
          = ((costs.filter (fun c =>
              c.category == AttrValue.s "llm" && c.llmModel == some mdl)).map
            CostEvent.amount).sum :=
  ⟨fun cat => costByCategory_getD costs cat, valuesSum_costByCategory costs,
   fun mdl ht => costByModel_getD costs mdl ht⟩

/-- C7 witness: the amended breakdown evaluated on a concrete LLM cost
event with model `m`. -/
theorem C7_witness :
    (mapGet (costByModel [costNamedModel]) (AttrValue.s "m")).getD (JsNum.num 0)
      = (([costNamedModel].filter (fun c =>
          c.category == AttrValue.s "llm"
            && c.llmModel == some (AttrValue.s "m"))).map
        CostEvent.amount).sum :=
  (C7_breakdowns [costNamedModel]).2.2 (AttrValue.s "m") (by decide)

/-- C10: `parseConversation` distributes over list concatenation in each
of its three output lists, so decoded events appear in span order and,
within one span, in event-list order. -/
theorem C10_append (xs ys : List Span) :
    (parseConversation (xs ++ ys)).costs
        = (parseConversation xs).costs ++ (parseConversation ys).costs
      ∧ (parseConversation (xs ++ ys)).usages
        = (parseConversation xs).usages ++ (parseConversation ys).usages
      ∧ (parseConversation (xs ++ ys)).toolUsages
        = (parseConversation xs).toolUsages ++ (parseConversation ys).toolUsages := by
  refine ⟨?_, ?_, ?_⟩ <;>
    simp [parseConversation_costs, parseConversation_usages,
      parseConversation_toolUsages, List.flatMap_append]

/-- C2 counterexample: a `yuu.cost` event whose amount attribute is the
non-numeric string "abc" is NOT excluded from the sums (the decoded
list has length 1), and the total becomes NaN, a non-numeric value. -/
theorem C2_counterexample :
    (parseConversation [spanBadAmount]).costs.length = 1
    ∧ costTotal (parseConversation [spanBadAmount]).costs = JsNum.nan := by
  decide

/-- C2 amended: a `yuu.cost` event with a present amount attribute is
always decoded and included in the conversation's cost list (never
excluded), and if its coerced amount is NaN the conversation total is
NaN as well; only events with an absent or null amount are dropped, and
the aggregation is a total function that never aborts. -/
theorem C2_nan_propagates (spans : List Span) (ev : SpanEvent)
    (hev : ev ∈ spans.flatMap Span.events)
    (hname : ev.name = "yuu.cost")
    (hamt : (getAttr ev.attributes "yuu.cost.amount").isSome = true) :
    ∃ c, parseCostEvent ev = some c
      ∧ c ∈ (parseConversation spans).costs
      ∧ (c.amount = JsNum.nan →
          costTotal (parseConversation spans).costs = JsNum.nan) := by
  obtain ⟨v, hv⟩ := Option.isSome_iff_exists.mp hamt
  have hp : parseCostEvent ev = some
      { category := (getAttr ev.attributes "yuu.cost.category").getD (AttrValue.s "llm")
        currency := (getAttr ev.attributes "yuu.cost.currency").getD (AttrValue.s "USD")
        amount := v.toNumber
        source := getAttr ev.attributes "yuu.cost.source"
        pricingId := getAttr ev.attributes "yuu.cost.pricing_id"
        llmProvider := getAttr ev.attributes "yuu.llm.provider"
        llmModel := getAttr ev.attributes "yuu.llm.model"
        llmRequestId := getAttr ev.attributes "yuu.llm.request_id"
        toolName := getAttr ev.attributes "yuu.tool.name"
        toolCallId := getAttr ev.attributes "yuu.tool.call_id" } := by
    simp [parseCostEvent, hv]
  have hmem : ∀ c, parseCostEvent ev = some c →
      c ∈ (parseConversation spans).costs := by
    intro c hc
    rw [costs_flat]
    exact List.mem_filterMap.mpr
      ⟨ev, List.mem_filter.mpr ⟨hev, by simp [hname]⟩, hc⟩
  exact ⟨_, hp, hmem _ hp, fun hnan => costTotal_nan (hmem _ hp) hnan⟩

/-- C2 witness: the amended statement applied to the concrete span with
the "abc" amount. -/
theorem C2_witness :
    ∃ c, parseCostEvent evBadAmount = some c
      ∧ c ∈ (parseConversation [spanBadAmount]).costs
      ∧ (c.amount = JsNum.nan →
          costTotal (parseConversation [spanBadAmount]).costs = JsNum.nan) :=
  C2_nan_propagates [spanBadAmount] evBadAmount
    (List.mem_flatMap.mpr ⟨spanBadAmount, List.mem_singleton.mpr rfl,
      List.mem_singleton.mpr rfl⟩) rfl rfl

/-- C8: cost decoding returns nothing if and only if the amount
attribute is absent; when it is present, a missing category defaults to
"llm" and a missing currency defaults to "USD", and the decoded event is
included in the span's extracted cost events. -/
theorem C8_cost_defaults (ev : SpanEvent) :
    (parseCostEvent ev = none ↔ getAttr ev.attributes "yuu.cost.amount" = none)
    ∧ (∀ c, parseCostEvent ev = some c →
        (getAttr ev.attributes "yuu.cost.category" = none →
            c.category = AttrValue.s "llm")
        ∧ (getAttr ev.attributes "yuu.cost.currency" = none →
            c.currency = AttrValue.s "USD"))
    ∧ ∀ (span : Span) (c : CostEvent), ev ∈ span.events →
        ev.name = "yuu.cost" → parseCostEvent ev = some c →
        c ∈ extractCostEvents span := by
  refine ⟨?_, ?_, ?_⟩
  · cases h : getAttr ev.attributes "yuu.cost.amount" <;> simp [parseCostEvent, h]
  · intro c hc
    cases h : getAttr ev.attributes "yuu.cost.amount" with
    | none => simp [parseCostEvent, h] at hc
    | some v =>
        simp [parseCostEvent, h] at hc
        subst hc
        exact ⟨fun hcat => by simp [hcat], fun hcur => by simp [hcur]⟩
  · intro span c hmem hname hc
    simp only [extractCostEvents]
    exact List.mem_filterMap.mpr
      ⟨ev, List.mem_filter.mpr ⟨hmem, by simp [hname]⟩, hc⟩

/-- C8 witness: the concrete event carrying only an amount decodes with
both defaults applied and is included in its span's extraction. -/
theorem C8_witness :
    cDefault.category = AttrValue.s "llm"
    ∧ cDefault.currency = AttrValue.s "USD"
    ∧ cDefault ∈ extractCostEvents spanDefaults := by
  have h := C8_cost_defaults evDefaults
  have hp : parseCostEvent evDefaults = some cDefault := rfl
  exact ⟨(h.2.1 cDefault hp).1 rfl, (h.2.1 cDefault hp).2 rfl,
    h.2.2 spanDefaults cDefault (List.mem_singleton.mpr rfl) rfl hp⟩

/-- C9: usage decoding returns nothing if and only if the provider
attribute is absent; with a provider present, a missing model defaults
to the empty string and missing token counts default to 0, so an event
carrying only a provider contributes one request with zero tokens to
the group keyed by (provider, ""). -/
theorem C9_usage_defaults (ev : SpanEvent) :
    (parseLlmUsageEvent ev = none
        ↔ getAttr ev.attributes "yuu.llm.provider" = none)
    ∧ (∀ u, parseLlmUsageEvent ev = some u →
        (getAttr ev.attributes "yuu.llm.model" = none → u.model = "")
        ∧ (getAttr ev.attributes "yuu.llm.usage.input_tokens" = none →
            u.inputTokens = JsNum.num 0)
        ∧ (getAttr ev.attributes "yuu.llm.usage.output_tokens" = none →
            u.outputTokens = JsNum.num 0)
        ∧ (getAttr ev.attributes "yuu.llm.usage.cache_read_tokens" = none →
            u.cacheReadTokens = JsNum.num 0)
        ∧ (getAttr ev.attributes "yuu.llm.usage.cache_write_tokens" = none →
            u.cacheWriteTokens = JsNum.num 0))
    ∧ ∀ u, parseLlmUsageEvent ev = some u →
        getAttr ev.attributes "yuu.llm.model" = none →
        getAttr ev.attributes "yuu.llm.usage.input_tokens" = none →
        getAttr ev.attributes "yuu.llm.usage.output_tokens" = none →
        getAttr ev.attributes "yuu.llm.usage.cache_read_tokens" = none →
        getAttr ev.attributes "yuu.llm.usage.cache_write_tokens" = none →
        mapGet (usageByModel [u]) (u.provider ++ "/")
          = some { model := "", provider := u.provider
                   inputTokens := JsNum.num 0, outputTokens := JsNum.num 0
                   cacheReadTokens := JsNum.num 0, cacheWriteTokens := JsNum.num 0
                   requests := 1 } := by
  refine ⟨?_, ?_, ?_⟩
  · cases h : getAttr ev.attributes "yuu.llm.provider" <;>
      simp [parseLlmUsageEvent, h]
  · intro u hu
    cases h : getAttr ev.attributes "yuu.llm.provider" with
    | none => simp [parseLlmUsageEvent, h] at hu
    | some p =>
        simp [parseLlmUsageEvent, h] at hu
        subst hu
        exact ⟨fun hm => by simp [hm, AttrValue.toJsString],
          fun h1 => by simp [h1, AttrValue.toNumber],
          fun h2 => by simp [h2, AttrValue.toNumber],
          fun h3 => by simp [h3, AttrValue.toNumber],
          fun h4 => by simp [h4, AttrValue.toNumber]⟩
  · intro u hu hm h1 h2 h3 h4
    cases h : getAttr ev.attributes "yuu.llm.provider" with
    | none => simp [parseLlmUsageEvent, h] at hu
    | some p =>
        simp [parseLlmUsageEvent, h] at hu
        subst hu
        simp [usageByModel, usageKey, usageStep, mapSet, mapGet,
          hm, h1, h2, h3, h4, AttrValue.toJsString, AttrValue.toNumber]

/-- C9 witness: the provider-only event decodes with all defaults and
forms a single zero-token group under the key `openai/`. -/
theorem C9_witness :
    uOpenai.model = ""
    ∧ mapGet (usageByModel [uOpenai]) (uOpenai.provider ++ "/")
      = some { model := "", provider := uOpenai.provider
               inputTokens := JsNum.num 0, outputTokens := JsNum.num 0
               cacheReadTokens := JsNum.num 0, cacheWriteTokens := JsNum.num 0
               requests := 1 } := by
  have h := C9_usage_defaults evProviderOnly
  have hp : parseLlmUsageEvent evProviderOnly = some uOpenai := rfl
  exact ⟨(h.2.1 uOpenai hp).1 rfl, h.2.2 uOpenai hp rfl rfl rfl rfl rfl⟩

/-- C3: any conversation whose spans carry exactly two `yuu.cost`
events with attributes {llm, USD, 0.002} and {llm, USD, 0.003} has a
computed total cost of 0.005 within tolerance 1e-9. -/
theorem C3_spec_scenario (spans : List Span) (e1 e2 : SpanEvent)
    (hf : (spans.flatMap Span.events).filter (fun e => e.name == "yuu.cost")
        = [e1, e2])
    (ha1 : getAttr e1.attributes "yuu.cost.amount"
        = some (AttrValue.n (JsNum.num (2 / 1000))))
    (hc1 : getAttr e1.attributes "yuu.cost.category" = some (AttrValue.s "llm"))
    (hu1 : getAttr e1.attributes "yuu.cost.currency" = some (AttrValue.s "USD"))
    (ha2 : getAttr e2.attributes "yuu.cost.amount"
        = some (AttrValue.n (JsNum.num (3 / 1000))))
    (hc2 : getAttr e2.attributes "yuu.cost.category" = some (AttrValue.s "llm"))
    (hu2 : getAttr e2.attributes "yuu.cost.currency" = some (AttrValue.s "USD")) :
    ∃ q : ℚ, costTotal (parseConversation spans).costs = JsNum.num q
      ∧ |q - 5 / 1000| ≤ 1 / 1000000000 := by
  have hcosts : (parseConversation spans).costs
      = [e1, e2].filterMap parseCostEvent := by rw [costs_flat, hf]
  have hp1 : parseCostEvent e1 = some
      { category := AttrValue.s "llm"
        currency := AttrValue.s "USD"
        amount := JsNum.num (2 / 1000)
        source := getAttr e1.attributes "yuu.cost.source"
        pricingId := getAttr e1.attributes "yuu.cost.pricing_id"
        llmProvider := getAttr e1.attributes "yuu.llm.provider"
        llmModel := getAttr e1.attributes "yuu.llm.model"
        llmRequestId := getAttr e1.attributes "yuu.llm.request_id"
        toolName := getAttr e1.attributes "yuu.tool.name"
        toolCallId := getAttr e1.attributes "yuu.tool.call_id" } := by
    simp [parseCostEvent, ha1, hc1, hu1, AttrValue.toNumber]
  have hp2 : parseCostEvent e2 = some
      { category := AttrValue.s "llm"
        currency := AttrValue.s "USD"
        amount := JsNum.num (3 / 1000)
        source := getAttr e2.attributes "yuu.cost.source"
        pricingId := getAttr e2.attributes "yuu.cost.pricing_id"
        llmProvider := getAttr e2.attributes "yuu.llm.provider"
        llmModel := getAttr e2.attributes "yuu.llm.model"
        llmRequestId := getAttr e2.attributes "yuu.llm.request_id"
        toolName := getAttr e2.attributes "yuu.tool.name"
        toolCallId := getAttr e2.attributes "yuu.tool.call_id" } := by
    simp [parseCostEvent, ha2, hc2, hu2, AttrValue.toNumber]
  have hfm : [e1, e2].filterMap parseCostEvent
      = [(parseCostEvent e1).getD cDefault, (parseCostEvent e2).getD cDefault] := by
    simp [List.filterMap_cons, hp1, hp2]
  refine ⟨2 / 1000 + 3 / 1000, ?_, by norm_num⟩
  rw [hcosts, hfm, hp1, hp2]
  simp only [Option.getD_some]
  have h2 : costTotal
      [({ category := AttrValue.s "llm", currency := AttrValue.s "USD"
          amount := JsNum.num (2 / 1000)
          source := getAttr e1.attributes "yuu.cost.source"
          pricingId := getAttr e1.attributes "yuu.cost.pricing_id"
          llmProvider := getAttr e1.attributes "yuu.llm.provider"
          llmModel := getAttr e1.attributes "yuu.llm.model"
          llmRequestId := getAttr e1.attributes "yuu.llm.request_id"
          toolName := getAttr e1.attributes "yuu.tool.name"
          toolCallId := getAttr e1.attributes "yuu.tool.call_id" } : CostEvent),
       { category := AttrValue.s "llm", currency := AttrValue.s "USD"
         amount := JsNum.num (3 / 1000)
         source := getAttr e2.attributes "yuu.cost.source"
         pricingId := getAttr e2.attributes "yuu.cost.pricing_id"
         llmProvider := getAttr e2.attributes "yuu.llm.provider"
         llmModel := getAttr e2.attributes "yuu.llm.model"
         llmRequestId := getAttr e2.attributes "yuu.llm.request_id"
         toolName := getAttr e2.attributes "yuu.tool.name"
         toolCallId := getAttr e2.attributes "yuu.tool.call_id" }]
      = JsNum.num 0 + JsNum.num (2 / 1000) + JsNum.num (3 / 1000) := rfl
  rw [h2, num_add_num, num_add_num]
  have h3 : (0 : ℚ) + 2 / 1000 + 3 / 1000 = 2 / 1000 + 3 / 1000 := by norm_num
  rw [h3]

/-- C3 witness: the scenario instantiated with two concrete spans each
carrying one of the two cost events. -/
theorem C3_witness :
    ∃ q : ℚ, costTotal (parseConversation [span002, span003]).costs = JsNum.num q
      ∧ |q - 5 / 1000| ≤ 1 / 1000000000 :=
  C3_spec_scenario [span002, span003] ev002 ev003 rfl rfl rfl rfl rfl rfl rfl

/-- C6: reordering the span list, and the event list inside each span,
leaves the cost total, every per-category total, and every
per-(provider/model) usage sum and request count unchanged. -/
theorem C6_order_independent (spans1 mid spans2 : List Span)
    (hperm : spans1.Perm mid)
    (hev : List.Forall₂
      (fun s t => s.events.Perm t.events ∧
        ({ s with events := t.events } : Span) = t) mid spans2) :
    costTotal (parseConversation spans1).costs
        = costTotal (parseConversation spans2).costs
    ∧ (∀ cat,
        (mapGet (costByCategory (parseConversation spans1).costs) cat).getD
            (JsNum.num 0)
          = (mapGet (costByCategory (parseConversation spans2).costs) cat).getD
            (JsNum.num 0))
    ∧ ∀ k,
        muInput (mapGet (usageByModel (parseConversation spans1).usages) k)
            = muInput (mapGet (usageByModel (parseConversation spans2).usages) k)
        ∧ muOutput (mapGet (usageByModel (parseConversation spans1).usages) k)
            = muOutput (mapGet (usageByModel (parseConversation spans2).usages) k)
        ∧ muCacheRead (mapGet (usageByModel (parseConversation spans1).usages) k)
            = muCacheRead (mapGet (usageByModel (parseConversation spans2).usages) k)
        ∧ muCacheWrite (mapGet (usageByModel (parseConversation spans1).usages) k)
            = muCacheWrite (mapGet (usageByModel (parseConversation spans2).usages) k)
        ∧ muRequests (mapGet (usageByModel (parseConversation spans1).usages) k)
            = muRequests (mapGet (usageByModel (parseConversation spans2).usages) k) := by
  have hcp : (parseConversation spans1).costs.Perm (parseConversation spans2).costs := by
    rw [parseConversation_costs, parseConversation_costs]
    exact flatMap_extract_perm extractCostEvents
      (fun s t h => extractCostEvents_perm h) hperm hev
  have hup : (parseConversation spans1).usages.Perm (parseConversation spans2).usages := by
    rw [parseConversation_usages, parseConversation_usages]
    exact flatMap_extract_perm extractLlmUsageEvents
      (fun s t h => extractLlmUsageEvents_perm h) hperm hev
  refine ⟨?_, ?_, ?_⟩
  · rw [costTotal_eq_sum, costTotal_eq_sum]
    exact (hcp.map CostEvent.amount).sum_eq
  · intro cat
    rw [costByCategory_getD, costByCategory_getD]
    exact ((hcp.filter (fun c => c.category == cat)).map CostEvent.amount).sum_eq
  · intro k
    have h1 := usageByModel_group (parseConversation spans1).usages k
    have h2 := usageByModel_group (parseConversation spans2).usages k
    have hf := hup.filter (fun u => usageKey u == k)
    refine ⟨?_, ?_, ?_, ?_, ?_⟩
    · rw [h1.1, h2.1]
      exact (hf.map LlmUsageEvent.inputTokens).sum_eq
    · rw [h1.2.1, h2.2.1]
      exact (hf.map LlmUsageEvent.outputTokens).sum_eq
    · rw [h1.2.2.1, h2.2.2.1]
      exact (hf.map LlmUsageEvent.cacheReadTokens).sum_eq
    · rw [h1.2.2.2.1, h2.2.2.2.1]
      exact (hf.map LlmUsageEvent.cacheWriteTokens).sum_eq
    · rw [h1.2.2.2.2, h2.2.2.2.2]
      exact hf.length_eq

/-- C6 witness: two concrete span lists, one a reordering of the other
(span order swapped and one span's events swapped), yield the same
total and the same request count in the `p/m` usage group. -/
theorem C6_witness :
    costTotal (parseConversation [spanP1, spanP2]).costs
        = costTotal (parseConversation [spanP2, spanP1r]).costs
    ∧ muRequests
        (mapGet (usageByModel (parseConversation [spanP1, spanP2]).usages) "p/m")
      = muRequests
        (mapGet (usageByModel (parseConversation [spanP2, spanP1r]).usages) "p/m") := by
  have h := C6_order_independent [spanP1, spanP2] [spanP2, spanP1] [spanP2, spanP1r]
    (List.Perm.swap spanP2 spanP1 [])
    (List.Forall₂.cons ⟨List.Perm.refl _, rfl⟩
      (List.Forall₂.cons ⟨List.Perm.swap evUsage1 evDefaults [], rfl⟩
        List.Forall₂.nil))
  exact ⟨h.1, (h.2.2 "p/m").2.2.2.2⟩

end Yuutrace
